import Mathlib

/-!
# EcoSteps — local-first activity sync and stats reconciliation, verified model

Shallow embedding of the repository's data layer:

* `LocalStorageService` (src/src/services/localStorageService.ts) — the Local
  Activity Queue.  AsyncStorage is modelled as the stored list of walk entries;
  each primitive storage call may fault, which we model with explicit Boolean
  fault flags (`getFail` for `AsyncStorage.getItem`, `setFail` for
  `AsyncStorage.setItem`).  An operation that catches a storage error and
  returns normally is a total function on the store; `saveWalkLocally`, which
  rethrows, returns `Except`.
* `FirebaseService` (src/unnamed/part_014, second copy, lines 367-1127) — the
  Remote Activity Store and the User Aggregate Profile.
* `SyncService` (src/unnamed/part_011) — the Sync Engine.

JS `number` is modelled as `Int`: no claim in scope depends on floating-point
rounding, only on which sums are computed and which fields are written.
Dates (`createdAt`, `lastSyncAttempt`, `updatedAt`) and geographic fields are
omitted: no claim mentions them.
-/

/-- JS truthiness of an optional string (`if (firebaseId)`):
`undefined` and the empty string are falsy. -/
def jsTruthy : Option String → Bool
  | none => false
  | some s => !s.isEmpty

/-- JS `(x || 0)` on an optional number field holding a natural:
`undefined` gives 0, and `0 || 0 = 0`, so this is `getD 0`. -/
def jsOrZero (o : Option Nat) : Nat := o.getD 0

/-- One record of the Local Activity Queue
(`LocalWalkEntry`, localStorageService.ts lines 4-10).
`id` is the optional remote (Firebase) identifier inherited from
`WalkHistoryEntry`; `syncAttempts` is optional in the TS interface. -/
structure LocalWalkEntry where
  localId : String
  id : Option String := none
  distance : Int
  duration : Int
  points : Int
  synced : Bool := false
  syncAttempts : Option Nat := none
  deriving Repr, DecidableEq

/-- The input of `saveWalkLocally`
(`Omit<LocalWalkEntry, 'localId' | 'createdAt' | 'synced'>`; the literal then
overrides `syncAttempts` with 0, so only these fields of the argument matter). -/
structure WalkData where
  id : Option String := none
  distance : Int
  duration : Int
  points : Int
  deriving Repr, DecidableEq

/-- `getLocalWalks` (localStorageService.ts lines 49-67): reads the stored
array; on a missing key or on any storage error it returns the empty list. -/
def getLocalWalks (getFail : Bool) (st : List LocalWalkEntry) : List LocalWalkEntry :=
  if getFail then [] else st

/-- The record built by `saveWalkLocally`'s object literal:
`{...walkData, localId, createdAt: new Date(), synced: false, syncAttempts: 0}`. -/
def newLocalWalk (freshId : String) (wd : WalkData) : LocalWalkEntry :=
  { localId := freshId, id := wd.id, distance := wd.distance,
    duration := wd.duration, points := wd.points,
    synced := false, syncAttempts := some 0 }

/-- The store contents written by a successful `saveWalkLocally`. -/
def enqueuedState (getFail : Bool) (freshId : String) (wd : WalkData)
    (st : List LocalWalkEntry) : List LocalWalkEntry :=
  getLocalWalks getFail st ++ [newLocalWalk freshId wd]

/-- `saveWalkLocally` (localStorageService.ts lines 25-47).  `freshId` stands
for the generated `walk_${Date.now()}_${random}` identifier (nondeterministic
in the source, hence a parameter).  A fault of the `setItem` write is rethrown
(`catch ... throw error`); the inner `getLocalWalks` swallows its own faults. -/
def saveWalkLocally (getFail setFail : Bool) (freshId : String) (wd : WalkData)
    (st : List LocalWalkEntry) : Except Unit (List LocalWalkEntry × String) :=
  if setFail then .error ()
  else .ok (enqueuedState getFail freshId wd st, freshId)

/-- `getUnsyncedWalks` (localStorageService.ts lines 69-72). -/
def getUnsyncedWalks (getFail : Bool) (st : List LocalWalkEntry) : List LocalWalkEntry :=
  (getLocalWalks getFail st).filter (fun w => !w.synced)

/-- JS `findIndex` + in-place mutation of that single element + write-back:
replace the first element satisfying `p` by its image under `f`. -/
def updateFirst (p : LocalWalkEntry → Bool) (f : LocalWalkEntry → LocalWalkEntry) :
    List LocalWalkEntry → List LocalWalkEntry
  | [] => []
  | w :: ws => if p w then f w :: ws else w :: updateFirst p f ws

/-- The mutation `markWalkAsSynced` performs on the found element:
`synced = true`, and `id = firebaseId` only when `firebaseId` is truthy. -/
def markFun (firebaseId : Option String) (w : LocalWalkEntry) : LocalWalkEntry :=
  { w with synced := true, id := if jsTruthy firebaseId then firebaseId else w.id }

/-- `markWalkAsSynced` (localStorageService.ts lines 74-91).  Any storage error
is caught and logged (function returns normally); when `findIndex` misses
(index -1) nothing is written. -/
def markWalkAsSynced (getFail setFail : Bool) (localId : String)
    (firebaseId : Option String) (st : List LocalWalkEntry) : List LocalWalkEntry :=
  let walks := getLocalWalks getFail st
  if walks.any (fun w => w.localId == localId) then
    if setFail then st
    else updateFirst (fun w => w.localId == localId) (markFun firebaseId) walks
  else st

/-- The mutation `incrementSyncAttempts` performs on the found element
(`syncAttempts = (syncAttempts || 0) + 1`; the `lastSyncAttempt` timestamp is
omitted — no claim mentions it). -/
def incFun (w : LocalWalkEntry) : LocalWalkEntry :=
  { w with syncAttempts := some (jsOrZero w.syncAttempts + 1) }

/-- `incrementSyncAttempts` (localStorageService.ts lines 93-107).  Any storage
error is caught and logged (function returns normally). -/
def incrementSyncAttempts (getFail setFail : Bool) (localId : String)
    (st : List LocalWalkEntry) : List LocalWalkEntry :=
  let walks := getLocalWalks getFail st
  if walks.any (fun w => w.localId == localId) then
    if setFail then st
    else updateFirst (fun w => w.localId == localId) incFun walks
  else st

/-- `deleteSyncedWalks` (localStorageService.ts lines 109-119): reads the
array (a read fault yields `[]`), filters to the unsynced records and writes
that filtered array back unconditionally; a write fault is caught and logged. -/
def deleteSyncedWalks (getFail setFail : Bool) (st : List LocalWalkEntry) :
    List LocalWalkEntry :=
  let walks := getLocalWalks getFail st
  let unsynced := walks.filter (fun w => !w.synced)
  if setFail then st else unsynced

/-!
## FirebaseService — Remote Activity Store and User Aggregate Profile

From src/unnamed/part_014 (second copy of `firebaseService.ts`, the one the
rest of the app imports: it defines `addPointsFromActivity`, cycling history,
and the redemption-preserving `refreshUserStats`).
-/

/-- One stored history record (walk, transit or cycling): only the numeric
fields the aggregation reads.  Lists are kept in insertion (creation) order. -/
structure RemoteEntry where
  distance : Int
  duration : Int
  points : Int
  deriving Repr, DecidableEq

/-- The User Aggregate Profile document (interface `UserProfile`,
src/src/utils/unitUtils.ts lines 192-202: `id`, `name`, `email`,
`totalPoints`, `level`, `activitiesCompleted`, `totalDistance`, `badges`).
Identity and badge fields are omitted (no claim reads them).  The interface
has **no** `totalDuration` member; the `totalDuration : Option Int` slot below
exists only so that "the profile's totalDuration field" is expressible — it is
`none` unless something writes it, and nothing in the code can. -/
structure UserProfileDoc where
  totalPoints : Int
  level : Int
  activitiesCompleted : Int
  totalDistance : Int
  totalDuration : Option Int := none
  deriving Repr, DecidableEq

/-- The keys a `Partial<UserProfile>` update can mention (plus
`totalDuration`, see `UserProfileDoc`). -/
inductive ProfileField where
  | totalPoints
  | level
  | activitiesCompleted
  | totalDistance
  | totalDuration
  deriving Repr, DecidableEq

/-- Firestore `updateDoc` merge of a single provided key. -/
def applyField (p : UserProfileDoc) : ProfileField × Int → UserProfileDoc
  | (.totalPoints, v) => { p with totalPoints := v }
  | (.level, v) => { p with level := v }
  | (.activitiesCompleted, v) => { p with activitiesCompleted := v }
  | (.totalDistance, v) => { p with totalDistance := v }
  | (.totalDuration, v) => { p with totalDuration := some v }

/-- `updateUserProfile` (part_014 lines 594-605): merge-write of the provided
keys into the profile document (`updatedAt` timestamp omitted). -/
def updateUserProfile (p : UserProfileDoc) (updates : List (ProfileField × Int)) :
    UserProfileDoc :=
  updates.foldl applyField p

/-- The per-user remote state: three history subcollections plus the profile
document (`none` when no profile document exists). -/
structure FbState where
  walks : List RemoteEntry
  transits : List RemoteEntry
  cycling : List RemoteEntry
  profile : Option UserProfileDoc
  deriving Repr, DecidableEq

/-- A `query(..., orderBy createdAt desc, limit n)` page over a subcollection
stored in insertion order: the most recent `n` records. -/
def fetchPage (limitCount : Nat) (l : List RemoteEntry) : List RemoteEntry :=
  l.reverse.take limitCount

/-- `getUserWalkHistory` (part_014 lines 638-675): pages the walk
subcollection; any query error is caught and the empty list returned
("Return empty array instead of throwing to prevent app crashes").
`getUserTransitHistory` (lines 812-847) and `getUserCyclingHistory`
(lines 902-938) have the same shape and the same catch-all. -/
def getUserWalkHistory (fail : Bool) (limitCount : Nat) (walks : List RemoteEntry) :
    List RemoteEntry :=
  if fail then [] else fetchPage limitCount walks

def sumBy (f : RemoteEntry → Int) (l : List RemoteEntry) : Int :=
  l.foldl (fun acc e => acc + f e) 0

/-- The record returned by `getUserTotalStats`. -/
structure TotalStats where
  totalWalks : Int
  totalTransits : Int
  totalCycling : Int
  totalActivities : Int
  totalDistance : Int
  totalDuration : Int
  totalPoints : Int
  deriving Repr, DecidableEq

/-- `getUserTotalStats` (part_014 lines 677-768): fetches up to 1000 walks,
transits and cycling trips and sums counts, distance, duration and points.
The three `fail` flags model the three subcollection queries faulting
(each getter swallows its own fault and contributes empty sums). -/
def getUserTotalStatsF (wFail tFail cFail : Bool) (fb : FbState) : TotalStats :=
  let walks := getUserWalkHistory wFail 1000 fb.walks
  let transits := getUserWalkHistory tFail 1000 fb.transits
  let cycling := getUserWalkHistory cFail 1000 fb.cycling
  { totalWalks := walks.length
    totalTransits := transits.length
    totalCycling := cycling.length
    totalActivities := (walks.length : Int) + transits.length + cycling.length
    totalDistance := sumBy (fun e => e.distance) walks + sumBy (fun e => e.distance) transits
      + sumBy (fun e => e.distance) cycling
    totalDuration := sumBy (fun e => e.duration) walks + sumBy (fun e => e.duration) transits
      + sumBy (fun e => e.duration) cycling
    totalPoints := sumBy (fun e => e.points) walks + sumBy (fun e => e.points) transits
      + sumBy (fun e => e.points) cycling }

def getUserTotalStats (fb : FbState) : TotalStats :=
  getUserTotalStatsF false false false fb

/-- `refreshUserStats` (part_014 lines 963-985), with fault flags for the
three history queries.  It recomputes the derived fields and deliberately
does not include `totalPoints` in the update ("DO NOT update totalPoints
here - preserve existing value to account for reward redemptions");
`level` is derived from the *current* `totalPoints`.  When no profile
document exists nothing is written. -/
def refreshUserStatsF (wFail tFail cFail : Bool) (fb : FbState) : FbState :=
  let actualStats := getUserTotalStatsF wFail tFail cFail fb
  match fb.profile with
  | none => fb
  | some p =>
    let currentTotalPoints := p.totalPoints
    { fb with profile := some (updateUserProfile p
        [(.activitiesCompleted, actualStats.totalActivities),
         (.totalDistance, actualStats.totalDistance),
         (.level, Int.fdiv currentTotalPoints 100 + 1)]) }

def refreshUserStats (fb : FbState) : FbState :=
  refreshUserStatsF false false false fb

/-- `addPointsFromActivity` (part_014 lines 988-1003): additive point credit;
`newTotalPoints = (totalPoints || 0) + points`, `level = floor(new/100)+1`.
No-op when no profile document exists. -/
def addPointsFromActivity (points : Int) (fb : FbState) : FbState :=
  match fb.profile with
  | none => fb
  | some p =>
    let newTotalPoints := p.totalPoints + points
    { fb with profile := some (updateUserProfile p
        [(.totalPoints, newTotalPoints),
         (.level, Int.fdiv newTotalPoints 100 + 1)]) }

/-- The document identifier `addDoc` generates for the next walk record
(opaque in the source; modelled as a function of the collection size —
what matters is that it is a non-empty string). -/
def freshRemoteId (fb : FbState) : String :=
  "fb_" ++ toString fb.walks.length

/-- `addWalkToHistory` (part_014 lines 610-637): appends the walk record to
`users/{uid}/walkHistory`, then credits its points via
`addPointsFromActivity`, and returns the generated document id. -/
def addWalkToHistory (w : LocalWalkEntry) (fb : FbState) : FbState × String :=
  let fid := freshRemoteId fb
  let fb1 := { fb with
    walks := fb.walks ++ [{ distance := w.distance, duration := w.duration, points := w.points }] }
  (addPointsFromActivity w.points fb1, fid)

/-!
## SyncService — the Sync Engine (src/unnamed/part_011)

The engine's state: the single-flight flag, the Local Activity Queue's store,
and the (per-user) Firebase state.  The engine's own storage calls go through
the `LocalStorageService` operations above with no fault injected (its claims
quantify over upload outcomes, not local-storage faults; every local-storage
operation the loop calls swallows its faults anyway).  `uploadOk` decides, per
snapshot record, whether `addWalkToHistory` succeeds (a failure is the thrown
network/remote error caught by the per-record `catch`, leaving remote and
profile state untouched).
-/

structure EngineState where
  isSyncing : Bool
  queue : List LocalWalkEntry
  fb : FbState
  deriving Repr, DecidableEq

/-- `SyncService.updateUserStats` (part_011 lines 143-163): after a successful
upload it re-reads the profile and, if present, overwrites `totalPoints`,
`activitiesCompleted`, `totalDistance` and `level` with values recomputed by
`getUserTotalStats` from the remote history.  Its own errors are caught
("Don't throw error here as the walk sync was successful"). -/
def updateUserStats (fb : FbState) : FbState :=
  match fb.profile with
  | none => fb
  | some p =>
    let actualStats := getUserTotalStats fb
    { fb with profile := some (updateUserProfile p
        [(.totalPoints, actualStats.totalPoints),
         (.activitiesCompleted, actualStats.totalActivities),
         (.totalDistance, actualStats.totalDistance),
         (.level, Int.fdiv actualStats.totalPoints 100 + 1)]) }

/-- The `for (const walk of unsyncedWalks)` loop of `syncUnsyncedWalks`
(part_011 lines 86-124), iterating over the snapshot while mutating the live
state; returns the state and the final `syncedCount`. -/
def syncLoop (uploadOk : LocalWalkEntry → Bool) :
    List LocalWalkEntry → EngineState → Nat → EngineState × Nat
  | [], s, syncedCount => (s, syncedCount)
  | walk :: rest, s, syncedCount =>
    if 5 ≤ jsOrZero walk.syncAttempts then
      syncLoop uploadOk rest s syncedCount
    else
      let s1 := { s with queue := incrementSyncAttempts false false walk.localId s.queue }
      if uploadOk walk then
        let r := addWalkToHistory walk s1.fb
        let q2 := markWalkAsSynced false false walk.localId (some r.2) s1.queue
        let fb3 := updateUserStats r.1
        syncLoop uploadOk rest { s1 with queue := q2, fb := fb3 } (syncedCount + 1)
      else
        syncLoop uploadOk rest s1 syncedCount

/-- The body of the `try` block of `syncUnsyncedWalks` (part_011 lines
74-134): snapshot the unsynced records, early-return when there are none,
run the loop, and purge synced records when at least one upload succeeded. -/
def syncBody (uploadOk : LocalWalkEntry → Bool) (s : EngineState) : EngineState :=
  let unsyncedWalks := getUnsyncedWalks false s.queue
  if unsyncedWalks.isEmpty then s
  else
    let r := syncLoop uploadOk unsyncedWalks s 0
    if 0 < r.2 then { r.1 with queue := deleteSyncedWalks false false r.1.queue }
    else r.1

/-- The guard structure of `syncUnsyncedWalks` (part_011 lines 60-72 and
135-139): the single-flight early return, the no-authenticated-user early
return, then `isSyncing = true`, the `try` body, and the `finally` that
clears the flag.  `body` is abstract here precisely because the `finally`
clears the flag no matter what state a thrown error left behind. -/
def syncPassGuard (authed : Bool) (body : EngineState → EngineState)
    (s : EngineState) : EngineState :=
  if s.isSyncing then s
  else if authed then
    let s2 := body { s with isSyncing := true }
    { s2 with isSyncing := false }
  else s

/-- `SyncService.syncUnsyncedWalks` (part_011 lines 60-140). -/
def syncUnsyncedWalks (uploadOk : LocalWalkEntry → Bool) (authed : Bool)
    (s : EngineState) : EngineState :=
  syncPassGuard authed (syncBody uploadOk) s

/-- Iterated sync passes (the Sync Scheduler triggering the engine `k` times,
each pass completing before the next starts). -/
def iterSync (uploadOk : LocalWalkEntry → Bool) (authed : Bool) :
    Nat → EngineState → EngineState
  | 0, s => s
  | k + 1, s => iterSync uploadOk authed k (syncUnsyncedWalks uploadOk authed s)

/-!
## RewardsScreen — reward redemption (src/src/screens/RewardsScreen.tsx)
-/

/-- The user-visible outcome of `handleRedeemReward`: which `Alert` fires /
whether the redemption write happens. -/
inductive RedeemOutcome where
  | insufficientPoints
  | alreadyRedeemed
  | redeemed
  deriving Repr, DecidableEq

/-- `handleRedeemReward` (RewardsScreen.tsx lines 91-121 and the confirm
dialog's Redeem branch, lines 107-140): rejects when there is no profile, no
authenticated user, or `displayProfile.totalPoints < reward.pointsCost`
("Insufficient Points" alert, nothing written); rejects an already-redeemed
reward; otherwise writes `totalPoints = totalPoints - pointsCost`.
Returns the outcome and the resulting profile document. -/
def handleRedeemReward (profile : Option UserProfileDoc) (hasUser : Bool)
    (alreadyRedeemed : Bool) (pointsCost : Int) :
    RedeemOutcome × Option UserProfileDoc :=
  match profile with
  | none => (.insufficientPoints, none)
  | some p =>
    if !hasUser || p.totalPoints < pointsCost then (.insufficientPoints, some p)
    else if alreadyRedeemed then (.alreadyRedeemed, some p)
    else
      let newPointsBalance := p.totalPoints - pointsCost
      (.redeemed, some (updateUserProfile p [(.totalPoints, newPointsBalance)]))

/-!
## Reachable states of the Local Activity Queue

The states of the stored walk list reachable through the queue's public
operations, with arbitrary fault injection, under the amended discipline that
every `markWalkAsSynced` call supplies a truthy (non-empty) remote identifier
— which is what the Sync Engine does, passing the id returned by
`addWalkToHistory`.
-/

inductive QueueReachable : List LocalWalkEntry → Prop where
  | init : QueueReachable []
  | enqueue (gf : Bool) (fid : String) (wd : WalkData) (q : List LocalWalkEntry) :
      QueueReachable q → QueueReachable (enqueuedState gf fid wd q)
  | markSynced (gf sf : Bool) (lid : String) (fid : Option String)
      (q : List LocalWalkEntry) : jsTruthy fid = true → QueueReachable q →
      QueueReachable (markWalkAsSynced gf sf lid fid q)
  | increment (gf sf : Bool) (lid : String) (q : List LocalWalkEntry) :
      QueueReachable q → QueueReachable (incrementSyncAttempts gf sf lid q)
  | purge (gf sf : Bool) (q : List LocalWalkEntry) :
      QueueReachable q → QueueReachable (deleteSyncedWalks gf sf q)

/-- Concrete pre-state for the C1 trace: the user has earned 10 points from
the one walk already in the remote history and has spent all of them
(`totalPoints = 0`); one 5-point walk is queued unsynced. -/
def stateC1 : EngineState :=
  { isSyncing := false
    queue := [{ localId := "w1", distance := 2, duration := 60, points := 5,
                syncAttempts := some 0 }]
    fb := { walks := [{ distance := 3, duration := 90, points := 10 }]
            transits := []
            cycling := []
            profile := some { totalPoints := 0, level := 1,
                              activitiesCompleted := 1, totalDistance := 3 } } }

/-- Concrete remote state for the C2 counterexample: one walk of duration 100
in the remote history, profile present. -/
def fbC2 : FbState :=
  { walks := [{ distance := 2, duration := 100, points := 10 }]
    transits := []
    cycling := []
    profile := some { totalPoints := 7, level := 1,
                      activitiesCompleted := 0, totalDistance := 0 } }


/-!
## Theorems
-/

/-- C1: the spec demands that after each successful upload the point balance
is adjusted additively by that record's points, exactly once, and is never
reset to a sum recomputed from activity history.  The code violates this:
`addWalkToHistory` does credit additively (0 + 5 = 5), but the sync loop then
calls `SyncService.updateUserStats`, which overwrites `totalPoints` with
`getUserTotalStats`'s recomputed history sum (10 + 5 = 15), erasing the
user's redemption spending.  Evaluated at `stateC1`: the final balance is 15,
not the additively-correct 0 + 5. -/
theorem C1_sync_pass_resets_balance_to_recomputed_sum :
    ((syncUnsyncedWalks (fun _ => true) true stateC1).fb.profile.map
        (fun p => p.totalPoints) = some 15)
    ∧ some (15 : Int) ≠ some ((0 : Int) + 5) := by decide

/-- C2 counterexample: the claim says `refreshUserStats` writes
`totalDuration` as the sum over the fetched records.  At `fbC2` the fetched
duration sum is 100, yet the resulting profile's `totalDuration` field is
still absent (`none`): the `UserProfile` interface has no such field and the
update never mentions it. -/
theorem C2_counterexample :
    (refreshUserStats fbC2).profile.map (fun q => q.totalDuration) = some none
    ∧ (getUserTotalStats fbC2).totalDuration = 100
    ∧ (none : Option Int) ≠ some 100 := by decide

/-- C2 (amended): `refreshUserStats` writes `activitiesCompleted` and
`totalDistance` as sums over the records fetched from the remote store (plus
the derived `level`), and modifies neither `pointBalance` (`totalPoints`)
nor any `totalDuration` field — the latter it does not write at all. -/
theorem C2_refresh_writes_derived_fields_not_points
    (fb : FbState) (p : UserProfileDoc) (h : fb.profile = some p) :
    (refreshUserStats fb).profile = some
      { p with
        activitiesCompleted :=
          ((fetchPage 1000 fb.walks).length : Int)
            + (fetchPage 1000 fb.transits).length + (fetchPage 1000 fb.cycling).length
        totalDistance :=
          sumBy (fun e => e.distance) (fetchPage 1000 fb.walks)
            + sumBy (fun e => e.distance) (fetchPage 1000 fb.transits)
            + sumBy (fun e => e.distance) (fetchPage 1000 fb.cycling)
        level := Int.fdiv p.totalPoints 100 + 1 } := by
  simp [refreshUserStats, refreshUserStatsF, getUserTotalStatsF, getUserWalkHistory,
    updateUserProfile, applyField, h]

/-- C2 witness: the amended theorem applied at `fbC2`. -/
theorem C2_refresh_writes_derived_fields_not_points_witness :
    (refreshUserStats fbC2).profile = some
      { totalPoints := 7, level := 1, activitiesCompleted := 1, totalDistance := 2,
        totalDuration := none } := by
  have h := C2_refresh_writes_derived_fields_not_points fbC2
    { totalPoints := 7, level := 1, activitiesCompleted := 0, totalDistance := 0 } rfl
  simpa using h

/-- C5: (i) a trigger while a pass is in progress returns the state unchanged
— the queue is not read, nothing is appended, no state component moves; and
(ii) whatever the `try` body does to the state (including a thrown error that
abandons it at an arbitrary intermediate point, modelled by quantifying over
the body), the `finally`-positioned clear leaves `isSyncing = false` at the
end of any pass that started. -/
theorem C5_single_flight_and_guard_release :
    (∀ (uploadOk : LocalWalkEntry → Bool) (authed : Bool) (s : EngineState),
        s.isSyncing = true → syncUnsyncedWalks uploadOk authed s = s)
    ∧ (∀ (authed : Bool) (body : EngineState → EngineState) (s : EngineState),
        s.isSyncing = false → (syncPassGuard authed body s).isSyncing = false) := by
  constructor
  · intro uploadOk authed s h
    simp [syncUnsyncedWalks, syncPassGuard, h]
  · intro authed body s h
    unfold syncPassGuard
    simp only [h]
    cases authed <;> simp [h]

/-- C5 witness: both parts applied at concrete states. -/
theorem C5_single_flight_and_guard_release_witness :
    syncUnsyncedWalks (fun _ => true) true { stateC1 with isSyncing := true }
      = { stateC1 with isSyncing := true }
    ∧ (syncPassGuard true (fun s => s) stateC1).isSyncing = false :=
  ⟨C5_single_flight_and_guard_release.1 (fun _ => true) true
      { stateC1 with isSyncing := true } rfl,
   C5_single_flight_and_guard_release.2 true (fun s => s) stateC1 rfl⟩

/-- C6: `saveWalkLocally` stores the new record with `synced = false`,
`syncAttempts = 0` and the freshly generated local identifier (appended after
whatever the read returned), and a fault of the storage write propagates to
the caller as an error rather than being swallowed. -/
theorem C6_enqueue_stores_fresh_unsynced_and_propagates_faults
    (gf : Bool) (freshId : String) (wd : WalkData) (st : List LocalWalkEntry) :
    saveWalkLocally gf false freshId wd st
      = .ok (getLocalWalks gf st ++
          [{ localId := freshId, id := wd.id, distance := wd.distance,
             duration := wd.duration, points := wd.points,
             synced := false, syncAttempts := some 0 }], freshId)
    ∧ saveWalkLocally gf true freshId wd st = .error () := by
  exact ⟨rfl, rfl⟩

/-- C7: redeeming with `pointsCost` greater than the current balance signals
insufficient points and leaves the profile (hence `pointBalance`) unchanged;
and any redemption that does go through writes a non-negative balance. -/
theorem C7_redemption_never_overdraws
    (hasUser alreadyRedeemed : Bool) (cost : Int) :
    (∀ p : UserProfileDoc, p.totalPoints < cost →
        handleRedeemReward (some p) hasUser alreadyRedeemed cost
          = (.insufficientPoints, some p))
    ∧ (∀ p q : UserProfileDoc,
        handleRedeemReward (some p) hasUser alreadyRedeemed cost
            = (.redeemed, some q) →
        0 ≤ q.totalPoints) := by
  constructor
  · intro p h
    simp [handleRedeemReward, h]
  · intro p q h
    unfold handleRedeemReward at h
    by_cases hc : (!hasUser || decide (p.totalPoints < cost)) = true
    · simp [hc] at h
    · simp only [hc] at h
      rw [Bool.not_eq_true, Bool.or_eq_false_iff] at hc
      have hle : cost ≤ p.totalPoints := by
        have := hc.2
        simp only [decide_eq_false_iff_not, not_lt] at this
        exact this
      by_cases ha : alreadyRedeemed = true
      · simp [ha] at h
      · rw [Bool.not_eq_true] at ha
        simp only [ha, Bool.false_eq_true, if_false, updateUserProfile, List.foldl,
          applyField, Prod.mk.injEq, Option.some.injEq, true_and] at h
        subst h
        simp only []
        omega

/-- C7 witness: the guard at balance 3 / cost 5, and the success branch at
balance 10 / cost 4. -/
theorem C7_redemption_never_overdraws_witness :
    handleRedeemReward
        (some { totalPoints := 3, level := 1, activitiesCompleted := 0, totalDistance := 0 })
        true false 5
      = (.insufficientPoints,
         some { totalPoints := 3, level := 1, activitiesCompleted := 0, totalDistance := 0 })
    ∧ (0 : Int) ≤
        ({ totalPoints := 6, level := 1, activitiesCompleted := 0,
           totalDistance := 0 } : UserProfileDoc).totalPoints :=
  ⟨(C7_redemption_never_overdraws true false 5).1
      { totalPoints := 3, level := 1, activitiesCompleted := 0, totalDistance := 0 }
      (by decide),
   (C7_redemption_never_overdraws true false 4).2
      { totalPoints := 10, level := 1, activitiesCompleted := 0, totalDistance := 0 }
      { totalPoints := 6, level := 1, activitiesCompleted := 0, totalDistance := 0 }
      (by decide)⟩

/-- C9: when the remote history query fails, `getUserWalkHistory` returns the
empty list instead of propagating the error; consequently `refreshUserStats`
run while all three history reads fail writes `activitiesCompleted = 0` and
`totalDistance = 0` to the (existing) profile rather than failing or leaving
the derived fields alone. -/
theorem C9_failed_history_read_zeroes_derived_stats
    (limitCount : Nat) (walks : List RemoteEntry)
    (fb : FbState) (p : UserProfileDoc) (h : fb.profile = some p) :
    getUserWalkHistory true limitCount walks = []
    ∧ (refreshUserStatsF true true true fb).profile.map
        (fun q => q.activitiesCompleted) = some 0
    ∧ (refreshUserStatsF true true true fb).profile.map
        (fun q => q.totalDistance) = some 0 := by
  refine ⟨rfl, ?_, ?_⟩ <;>
    simp [refreshUserStatsF, getUserTotalStatsF, getUserWalkHistory, sumBy,
      updateUserProfile, applyField, h]

/-- C9 witness: applied at `fbC2` (whose profile exists). -/
theorem C9_failed_history_read_zeroes_derived_stats_witness :
    getUserWalkHistory true 10 fbC2.walks = []
    ∧ (refreshUserStatsF true true true fbC2).profile.map
        (fun q => q.activitiesCompleted) = some 0
    ∧ (refreshUserStatsF true true true fbC2).profile.map
        (fun q => q.totalDistance) = some 0 :=
  C9_failed_history_read_zeroes_derived_stats 10 fbC2.walks fbC2
    { totalPoints := 7, level := 1, activitiesCompleted := 0, totalDistance := 0 } rfl

/-- C10 counterexample: the claim says every fault-swallowing queue operation
leaves the stored state unchanged.  `deleteSyncedWalks` does not: under a
read fault (its internal `getLocalWalks` swallows the error and yields `[]`)
with a working write, it writes that empty array back, erasing a stored
unsynced record. -/
theorem C10_counterexample :
    deleteSyncedWalks true false
        [{ localId := "w1", distance := 2, duration := 60, points := 5 }] = []
    ∧ ([{ localId := "w1", distance := 2, duration := 60, points := 5 }]
        : List LocalWalkEntry) ≠ [] := by decide

/-- C10 (amended): `getLocalWalks` returns `[]` on a read fault;
`markWalkAsSynced` and `incrementSyncAttempts` catch any storage fault, leave
the stored state unchanged and return normally; `deleteSyncedWalks` also
returns normally and leaves the state unchanged when the *write* faults — but
under a read fault with a working write it instead overwrites the store with
the empty list. -/
theorem C10_faults_swallowed_state_preserved
    (gf sf : Bool) (lid : String) (fid : Option String) (st : List LocalWalkEntry)
    (hfault : gf = true ∨ sf = true) :
    getLocalWalks true st = []
    ∧ markWalkAsSynced gf sf lid fid st = st
    ∧ incrementSyncAttempts gf sf lid st = st
    ∧ deleteSyncedWalks gf true st = st := by
  refine ⟨rfl, ?_, ?_, rfl⟩
  · by_cases hg : gf = true
    · subst hg
      simp [markWalkAsSynced, getLocalWalks]
    · have hs : sf = true := hfault.resolve_left hg
      subst hs
      simp [markWalkAsSynced]
  · by_cases hg : gf = true
    · subst hg
      simp [incrementSyncAttempts, getLocalWalks]
    · have hs : sf = true := hfault.resolve_left hg
      subst hs
      simp [incrementSyncAttempts]

/-- C10 witness: the amended theorem at a concrete store with a read fault. -/
theorem C10_faults_swallowed_state_preserved_witness :
    getLocalWalks true
        [{ localId := "w1", distance := 2, duration := 60, points := 5 }] = []
    ∧ markWalkAsSynced true false "w1" (some "fb_0")
        [{ localId := "w1", distance := 2, duration := 60, points := 5 }]
        = [{ localId := "w1", distance := 2, duration := 60, points := 5 }]
    ∧ incrementSyncAttempts true false "w1"
        [{ localId := "w1", distance := 2, duration := 60, points := 5 }]
        = [{ localId := "w1", distance := 2, duration := 60, points := 5 }]
    ∧ deleteSyncedWalks true true
        [{ localId := "w1", distance := 2, duration := 60, points := 5 }]
        = [{ localId := "w1", distance := 2, duration := 60, points := 5 }] :=
  C10_faults_swallowed_state_preserved true false "w1" (some "fb_0")
    [{ localId := "w1", distance := 2, duration := 60, points := 5 }] (Or.inl rfl)

/-- Every element of `updateFirst p f q` is an element of `q` or the image
under `f` of an element of `q` satisfying `p`. -/
theorem mem_updateFirst {p : LocalWalkEntry → Bool} {f : LocalWalkEntry → LocalWalkEntry}
    {q : List LocalWalkEntry} {w : LocalWalkEntry} (h : w ∈ updateFirst p f q) :
    w ∈ q ∨ ∃ v ∈ q, p v = true ∧ w = f v := by
  induction q with
  | nil => simp [updateFirst] at h
  | cons a as ih =>
    unfold updateFirst at h
    by_cases hp : p a = true
    · rw [if_pos hp] at h
      rcases List.mem_cons.mp h with h1 | h1
      · exact Or.inr ⟨a, List.mem_cons_self a as, hp, h1⟩
      · exact Or.inl (List.mem_cons_of_mem a h1)
    · rw [if_neg hp] at h
      rcases List.mem_cons.mp h with h1 | h1
      · exact Or.inl (h1 ▸ List.mem_cons_self a as)
      · rcases ih h1 with h2 | ⟨v, hv, hpv, hw⟩
        · exact Or.inl (List.mem_cons_of_mem a h2)
        · exact Or.inr ⟨v, List.mem_cons_of_mem a hv, hpv, hw⟩

/-- C8 counterexample: the claim quantifies over all uses of the public
operations, but `markWalkAsSynced`'s remote id parameter is optional
(`firebaseId?: string`).  Enqueue one record and mark it synced passing
`undefined`: the resulting reachable state holds a record with
`synced = true` and no remote identifier. -/
theorem C8_counterexample :
    (markWalkAsSynced false false "walk_1" none
        (enqueuedState false "walk_1"
          { id := none, distance := 2, duration := 60, points := 5 } [])).any
      (fun w => w.synced && w.id.isNone) = true := by decide

/-- C8 (amended): in every state of the Local Activity Queue reachable via
its public operations in which each `markWalkAsSynced` call supplies a truthy
(non-empty) remote identifier — as the Sync Engine always does, passing the
id returned by `addWalkToHistory` — every record with `synced = true` carries
a non-null remote identifier. -/
theorem C8_synced_records_carry_remote_id (q : List LocalWalkEntry)
    (h : QueueReachable q) :
    ∀ w ∈ q, w.synced = true → w.id ≠ none := by
  induction h with
  | init => simp
  | enqueue gf fid wd q hq ih =>
    intro w hw hs
    unfold enqueuedState at hw
    rcases List.mem_append.mp hw with h1 | h1
    · cases gf
      · exact ih w (by simpa [getLocalWalks] using h1) hs
      · simp [getLocalWalks] at h1
    · simp only [List.mem_singleton] at h1
      subst h1
      simp [newLocalWalk] at hs
  | markSynced gf sf lid fid q htr hq ih =>
    intro w hw hs
    unfold markWalkAsSynced at hw
    by_cases hany : ((getLocalWalks gf q).any (fun v => v.localId == lid)) = true
    · rw [if_pos hany] at hw
      by_cases hsf : sf = true
      · rw [if_pos hsf] at hw
        exact ih w hw hs
      · rw [if_neg hsf] at hw
        cases gf
        · rcases mem_updateFirst (by simpa [getLocalWalks] using hw) with h1 | ⟨v, hv, hpv, hweq⟩
          · exact ih w h1 hs
          · subst hweq
            cases fid with
            | none => simp [jsTruthy] at htr
            | some s => simp [markFun, htr]
        · simp [getLocalWalks, updateFirst] at hw
    · rw [if_neg hany] at hw
      exact ih w hw hs
  | increment gf sf lid q hq ih =>
    intro w hw hs
    unfold incrementSyncAttempts at hw
    by_cases hany : ((getLocalWalks gf q).any (fun v => v.localId == lid)) = true
    · rw [if_pos hany] at hw
      by_cases hsf : sf = true
      · rw [if_pos hsf] at hw
        exact ih w hw hs
      · rw [if_neg hsf] at hw
        cases gf
        · rcases mem_updateFirst (by simpa [getLocalWalks] using hw) with h1 | ⟨v, hv, hpv, hweq⟩
          · exact ih w h1 hs
          · subst hweq
            simp only [incFun] at hs ⊢
            exact ih v hv hs
        · simp [getLocalWalks, updateFirst] at hw
    · rw [if_neg hany] at hw
      exact ih w hw hs
  | purge gf sf q hq ih =>
    intro w hw hs
    unfold deleteSyncedWalks at hw
    by_cases hsf : sf = true
    · rw [if_pos hsf] at hw
      exact ih w hw hs
    · rw [if_neg hsf] at hw
      cases gf
      · have h1 : w ∈ q ∧ w.synced = false := by simpa [getLocalWalks] using hw
        exact ih w h1.1 hs
      · simp [getLocalWalks] at hw

/-- C8 witness: the amended invariant at a concrete reachable state —
enqueue one record, mark it synced with the truthy id "fb_0". -/
theorem C8_synced_records_carry_remote_id_witness :
    ({ localId := "walk_1", id := some "fb_0", distance := 2, duration := 60,
       points := 5, synced := true, syncAttempts := some 0 } : LocalWalkEntry).id ≠ none :=
  C8_synced_records_carry_remote_id
    (markWalkAsSynced false false "walk_1" (some "fb_0")
      (enqueuedState false "walk_1" { id := none, distance := 2, duration := 60, points := 5 } []))
    (QueueReachable.markSynced false false "walk_1" (some "fb_0") _ (by decide)
      (QueueReachable.enqueue false "walk_1" _ [] QueueReachable.init))
    { localId := "walk_1", id := some "fb_0", distance := 2, duration := 60,
      points := 5, synced := true, syncAttempts := some 0 }
    (by decide) rfl

/-- One sync pass over a single-record queue whose upload fails: when the
record's attempt counter is below 5 it is incremented (before the upload
attempt), otherwise the record is skipped untouched; either way the record
stays in the queue and the remote/profile state does not move. -/
theorem syncPass_single_failing (w : LocalWalkEntry) (fb : FbState) (a : Nat)
    (hs : w.synced = false) :
    syncUnsyncedWalks (fun _ => false) true
      { isSyncing := false, queue := [{ w with syncAttempts := some a }], fb := fb }
      = { isSyncing := false,
          queue := [{ w with syncAttempts := some (if a < 5 then a + 1 else a) }],
          fb := fb } := by
  by_cases h5 : 5 ≤ a
  · have hlt : ¬a < 5 := by omega
    simp [syncUnsyncedWalks, syncPassGuard, syncBody, getUnsyncedWalks, getLocalWalks,
      syncLoop, jsOrZero, hs, h5, hlt, List.filter]
  · have hlt : a < 5 := by omega
    simp [syncUnsyncedWalks, syncPassGuard, syncBody, getUnsyncedWalks, getLocalWalks,
      syncLoop, jsOrZero, hs, h5, hlt, List.filter, incrementSyncAttempts,
      updateFirst, incFun]

/-- Iterating failing passes from attempt count `a ≤ 5`: after `k` further
passes the counter is `min (a + k) 5`, the record is still there, and the
remote state never moves. -/
theorem iterSync_single_failing (k : Nat) (a : Nat) (w : LocalWalkEntry) (fb : FbState)
    (hs : w.synced = false) (ha : a ≤ 5) :
    iterSync (fun _ => false) true k
      { isSyncing := false, queue := [{ w with syncAttempts := some a }], fb := fb }
      = { isSyncing := false,
          queue := [{ w with syncAttempts := some (min (a + k) 5) }], fb := fb } := by
  induction k generalizing a with
  | zero =>
    have hmin : min (a + 0) 5 = a := by omega
    rw [iterSync, hmin]
  | succ k ih =>
    have hstep : iterSync (fun _ => false) true (k + 1)
        { isSyncing := false, queue := [{ w with syncAttempts := some a }], fb := fb }
        = iterSync (fun _ => false) true k
          { isSyncing := false,
            queue := [{ w with syncAttempts := some (if a < 5 then a + 1 else a) }],
            fb := fb } := by
      rw [iterSync, syncPass_single_failing w fb a hs]
    rw [hstep, ih (if a < 5 then a + 1 else a) (by split <;> omega)]
    have hmin : min ((if a < 5 then a + 1 else a) + k) 5 = min (a + (k + 1)) 5 := by
      split <;> omega
    rw [hmin]

/-- C4: a freshly enqueued record whose upload always fails has its
`syncAttempts` counter driven up by one per pass, to at most and including 5
(`min k 5` after `k` passes); from the 6th pass onward the counter no longer
moves — the record is skipped before any increment or upload attempt (the
remote state `fb` is untouched by every pass) — and the record is still
present in the local queue, never deleted. -/
theorem C4_failing_record_capped_and_retained (k : Nat) (w : LocalWalkEntry)
    (fb : FbState) (hs : w.synced = false) (ha : w.syncAttempts = some 0) :
    iterSync (fun _ => false) true k { isSyncing := false, queue := [w], fb := fb }
      = { isSyncing := false,
          queue := [{ w with syncAttempts := some (min k 5) }], fb := fb } := by
  have hw : ({ w with syncAttempts := some 0 } : LocalWalkEntry) = w := by
    cases w with
    | mk lid id d du pts sy sa =>
      simp only at ha
      rw [ha]
  have h := iterSync_single_failing k 0 w fb hs (by omega)
  rw [hw] at h
  simpa using h

/-- C4 witness: seven consecutive failing passes on a concrete fresh record
leave it in the queue with `syncAttempts = 5` and the remote state unmoved. -/
theorem C4_failing_record_capped_and_retained_witness :
    iterSync (fun _ => false) true 7
      { isSyncing := false,
        queue := [{ localId := "w1", distance := 2, duration := 60, points := 5,
                    syncAttempts := some 0 }],
        fb := { walks := [], transits := [], cycling := [], profile := none } }
      = { isSyncing := false,
          queue := [{ localId := "w1", distance := 2, duration := 60, points := 5,
                      syncAttempts := some 5 }],
          fb := { walks := [], transits := [], cycling := [], profile := none } } := by
  have h := C4_failing_record_capped_and_retained 7
    { localId := "w1", distance := 2, duration := 60, points := 5, syncAttempts := some 0 }
    { walks := [], transits := [], cycling := [], profile := none } rfl rfl
  simpa using h

/-- Mapping a function that fixes every element failing `p` over a list with
no `p`-element is the identity. -/
theorem map_ite_id (p : LocalWalkEntry → Bool) (f : LocalWalkEntry → LocalWalkEntry)
    (q : List LocalWalkEntry) (h : ∀ a ∈ q, ¬p a = true) :
    q.map (fun a => if p a then f a else a) = q := by
  induction q with
  | nil => rfl
  | cons a as ih =>
    have ha : ¬p a = true := h a (List.mem_cons_self a as)
    simp only [List.map_cons, if_neg ha]
    rw [ih (fun b hb => h b (List.mem_cons_of_mem a hb))]

/-- When at most one element satisfies `p`, replacing the first `p`-element
is the same as mapping the conditional replacement over the whole list. -/
theorem updateFirst_eq_map (p : LocalWalkEntry → Bool) (f : LocalWalkEntry → LocalWalkEntry)
    (q : List LocalWalkEntry) (h : q.countP p ≤ 1) :
    updateFirst p f q = q.map (fun a => if p a then f a else a) := by
  induction q with
  | nil => rfl
  | cons a as ih =>
    rw [List.countP_cons] at h
    by_cases hp : p a = true
    · rw [if_pos hp] at h
      have hz : as.countP p = 0 := by omega
      have hall : ∀ b ∈ as, ¬p b = true := List.countP_eq_zero.mp hz
      simp only [updateFirst, if_pos hp, List.map_cons]
      rw [map_ite_id p f as hall]
    · rw [if_neg hp] at h
      simp only [updateFirst, if_neg hp, List.map_cons]
      rw [ih (by omega)]

/-- A map that preserves `localId` preserves the per-`localId` element count. -/
theorem countP_localId_map (g : LocalWalkEntry → LocalWalkEntry)
    (hg : ∀ v, (g v).localId = v.localId) (q : List LocalWalkEntry) (lid : String) :
    (q.map g).countP (fun v => v.localId == lid) = q.countP (fun v => v.localId == lid) := by
  rw [List.countP_map]
  exact List.countP_congr (fun v _ => by simp [Function.comp, hg v])

/-- `incrementSyncAttempts` with no storage fault, on a store with at most
one record per local id, as a pointwise map. -/
theorem incrementSyncAttempts_eq_map (lid : String) (q : List LocalWalkEntry)
    (h : q.countP (fun v => v.localId == lid) ≤ 1) :
    incrementSyncAttempts false false lid q
      = q.map (fun v => if v.localId == lid then incFun v else v) := by
  unfold incrementSyncAttempts getLocalWalks
  simp only [Bool.false_eq_true, if_false]
  by_cases hany : q.any (fun v => v.localId == lid) = true
  · rw [if_pos hany]
    exact updateFirst_eq_map _ _ q h
  · rw [if_neg hany]
    rw [Bool.not_eq_true, List.any_eq_false] at hany
    exact (map_ite_id _ _ q hany).symm

/-- `markWalkAsSynced` with no storage fault, on a store with at most one
record per local id, as a pointwise map. -/
theorem markWalkAsSynced_eq_map (lid : String) (fid : Option String)
    (q : List LocalWalkEntry) (h : q.countP (fun v => v.localId == lid) ≤ 1) :
    markWalkAsSynced false false lid fid q
      = q.map (fun v => if v.localId == lid then markFun fid v else v) := by
  unfold markWalkAsSynced getLocalWalks
  simp only [Bool.false_eq_true, if_false]
  by_cases hany : q.any (fun v => v.localId == lid) = true
  · rw [if_pos hany]
    exact updateFirst_eq_map _ _ q h
  · rw [if_neg hany]
    rw [Bool.not_eq_true, List.any_eq_false] at hany
    exact (map_ite_id _ _ q hany).symm

/-- The queue transformation one successful loop iteration performs
(increment then mark), as a single pointwise map. -/
theorem queue_step_eq_map (lid : String) (fid : Option String) (q : List LocalWalkEntry)
    (h : ∀ l, q.countP (fun v => v.localId == l) ≤ 1) :
    markWalkAsSynced false false lid fid (incrementSyncAttempts false false lid q)
      = q.map (fun v => if v.localId == lid then markFun fid (incFun v) else v) := by
  rw [incrementSyncAttempts_eq_map lid q (h lid)]
  have hg : ∀ v, ((fun v => if v.localId == lid then incFun v else v) v).localId = v.localId := by
    intro v
    by_cases hv : (v.localId == lid) = true <;> simp [hv, incFun]
  rw [markWalkAsSynced_eq_map lid fid _ (by rw [countP_localId_map _ hg q lid]; exact h lid)]
  rw [List.map_map]
  apply List.map_congr_left
  intro v _
  by_cases hv : (v.localId == lid) = true <;> simp [Function.comp, hv, incFun]

/-- `addPointsFromActivity` only touches the profile. -/
theorem addPointsFromActivity_walks (pts : Int) (fb : FbState) :
    (addPointsFromActivity pts fb).walks = fb.walks := by
  cases fb with
  | mk w t c pr => cases pr <;> rfl

/-- `updateUserStats` only touches the profile. -/
theorem updateUserStats_walks (fb : FbState) :
    (updateUserStats fb).walks = fb.walks := by
  cases fb with
  | mk w t c pr => cases pr <;> rfl

/-- A successful `addWalkToHistory` appends exactly one record to the
remote walk history. -/
theorem addWalkToHistory_walks (u : LocalWalkEntry) (fb : FbState) :
    ((addWalkToHistory u fb).1).walks
      = fb.walks ++ [{ distance := u.distance, duration := u.duration, points := u.points }] := by
  unfold addWalkToHistory
  rw [addPointsFromActivity_walks]

/-- The sync loop under an always-succeeding upload, over a snapshot of
fresh records (attempt count below the dead-letter threshold), on a live
queue with at most one record per local id, every record of which is either
already synced or present in the snapshot: afterwards every record of the
live queue is synced, the remote walk history grew by exactly the snapshot
size, and `syncedCount` grew by the snapshot size. -/
theorem syncLoop_all_success (snapshot : List LocalWalkEntry) :
    ∀ (s : EngineState) (n : Nat),
    (∀ l, s.queue.countP (fun v => v.localId == l) ≤ 1) →
    (∀ v ∈ s.queue, v.synced = true ∨ ∃ u ∈ snapshot, u.localId = v.localId) →
    (∀ u ∈ snapshot, jsOrZero u.syncAttempts < 5) →
    (∀ v ∈ (syncLoop (fun _ => true) snapshot s n).1.queue, v.synced = true)
    ∧ (syncLoop (fun _ => true) snapshot s n).1.fb.walks.length
        = s.fb.walks.length + snapshot.length
    ∧ (syncLoop (fun _ => true) snapshot s n).2 = n + snapshot.length := by
  induction snapshot with
  | nil =>
    intro s n hcnt hcov hfresh
    refine ⟨?_, by simp [syncLoop], by simp [syncLoop]⟩
    intro v hv
    rcases hcov v hv with h | ⟨u, hu, _⟩
    · exact h
    · exact absurd hu (List.not_mem_nil u)
  | cons u rest ih =>
    intro s n hcnt hcov hfresh
    have hu5 : ¬5 ≤ jsOrZero u.syncAttempts := by
      have := hfresh u (List.mem_cons_self u rest)
      omega
    have hstep : syncLoop (fun _ => true) (u :: rest) s n
        = syncLoop (fun _ => true) rest
            { isSyncing := s.isSyncing,
              queue := markWalkAsSynced false false u.localId
                         (some (addWalkToHistory u s.fb).2)
                         (incrementSyncAttempts false false u.localId s.queue),
              fb := updateUserStats (addWalkToHistory u s.fb).1 } (n + 1) := by
      simp only [syncLoop]
      rw [if_neg hu5]
      exact if_pos trivial
    have hq2 : markWalkAsSynced false false u.localId (some (addWalkToHistory u s.fb).2)
          (incrementSyncAttempts false false u.localId s.queue)
        = s.queue.map (fun v => if v.localId == u.localId
            then markFun (some (addWalkToHistory u s.fb).2) (incFun v) else v) :=
      queue_step_eq_map u.localId (some (addWalkToHistory u s.fb).2) s.queue hcnt
    have hG : ∀ v : LocalWalkEntry,
        ((fun v => if v.localId == u.localId
            then markFun (some (addWalkToHistory u s.fb).2) (incFun v) else v) v).localId
          = v.localId := by
      intro v
      by_cases hv : (v.localId == u.localId) = true <;> simp [hv, markFun, incFun]
    have hcnt' : ∀ l, (s.queue.map (fun v => if v.localId == u.localId
        then markFun (some (addWalkToHistory u s.fb).2) (incFun v) else v)).countP
          (fun v => v.localId == l) ≤ 1 := by
      intro l
      rw [countP_localId_map _ hG s.queue l]
      exact hcnt l
    have hcov' : ∀ v ∈ s.queue.map (fun v => if v.localId == u.localId
        then markFun (some (addWalkToHistory u s.fb).2) (incFun v) else v),
        v.synced = true ∨ ∃ u2 ∈ rest, u2.localId = v.localId := by
      intro v' hv'
      rcases List.mem_map.mp hv' with ⟨v, hv, rfl⟩
      by_cases hvl : (v.localId == u.localId) = true
      · left
        simp [hvl, markFun]
      · rw [if_neg hvl]
        rcases hcov v hv with h | ⟨u', hu', heq⟩
        · exact Or.inl h
        · rcases List.mem_cons.mp hu' with rfl | hu2
          · exact absurd (by simp [heq]) hvl
          · exact Or.inr ⟨u', hu2, heq⟩
    have hfresh' : ∀ u2 ∈ rest, jsOrZero u2.syncAttempts < 5 :=
      fun u2 hu2 => hfresh u2 (List.mem_cons_of_mem u hu2)
    obtain ⟨ih1, ih2, ih3⟩ := ih
      { isSyncing := s.isSyncing,
        queue := s.queue.map (fun v => if v.localId == u.localId
          then markFun (some (addWalkToHistory u s.fb).2) (incFun v) else v),
        fb := updateUserStats (addWalkToHistory u s.fb).1 } (n + 1) hcnt' hcov' hfresh'
    rw [hstep, hq2]
    refine ⟨ih1, ?_, ?_⟩
    · rw [ih2]
      dsimp only
      rw [updateUserStats_walks, addWalkToHistory_walks]
      simp only [List.length_append, List.length_cons, List.length_nil]
      omega
    · rw [ih3]
      simp only [List.length_cons]
      omega

/-- C3: for a queue of freshly enqueued unsynced records (`synced = false`,
`syncAttempts = 0`, pairwise-distinct fresh local ids), one sync pass in
which every upload succeeds appends exactly one remote record per queued
record (so at least N new records) and leaves the Local Activity Queue with
zero unsynced records. -/
theorem C3_all_success_pass_drains_queue (s : EngineState)
    (hflag : s.isSyncing = false)
    (hall : ∀ w ∈ s.queue, w.synced = false ∧ w.syncAttempts = some 0)
    (hnodup : (s.queue.map (fun w => w.localId)).Nodup) :
    (syncUnsyncedWalks (fun _ => true) true s).fb.walks.length
      = s.fb.walks.length + s.queue.length
    ∧ getUnsyncedWalks false (syncUnsyncedWalks (fun _ => true) true s).queue = [] := by
  obtain ⟨flag, q, fb⟩ := s
  simp only at hflag hall hnodup
  subst hflag
  by_cases hq : q = []
  · subst hq
    constructor
    · rfl
    · rfl
  · have hcnt : ∀ l, q.countP (fun v => v.localId == l) ≤ 1 := by
      intro l
      have h1 : (q.map (fun w => w.localId)).countP (fun x => x == l) ≤ 1 :=
        List.nodup_iff_count_le_one.mp hnodup l
      rw [List.countP_map] at h1
      exact h1
    have hcov : ∀ v ∈ q, v.synced = true ∨ ∃ u ∈ q, u.localId = v.localId :=
      fun v hv => Or.inr ⟨v, hv, rfl⟩
    have hfresh : ∀ u ∈ q, jsOrZero u.syncAttempts < 5 := by
      intro u hu
      rw [(hall u hu).2]
      simp [jsOrZero]
    obtain ⟨l1, l2, l3⟩ := syncLoop_all_success q
      { isSyncing := true, queue := q, fb := fb } 0 hcnt hcov hfresh
    have hfilter : q.filter (fun w => !w.synced) = q := by
      rw [List.filter_eq_self]
      intro a ha
      simp [(hall a ha).1]
    have hie : q.isEmpty = false := by
      cases q with
      | nil => exact absurd rfl hq
      | cons a as => rfl
    have hr2 : 0 < (syncLoop (fun _ => true) q
        { isSyncing := true, queue := q, fb := fb } 0).2 := by
      rw [l3]
      simpa using List.length_pos.mpr hq
    have hbody : syncBody (fun _ => true) { isSyncing := true, queue := q, fb := fb }
        = { (syncLoop (fun _ => true) q { isSyncing := true, queue := q, fb := fb } 0).1 with
            queue := deleteSyncedWalks false false
              (syncLoop (fun _ => true) q
                { isSyncing := true, queue := q, fb := fb } 0).1.queue } := by
      unfold syncBody getUnsyncedWalks getLocalWalks
      simp only [Bool.false_eq_true, if_false, hfilter, hie]
      rw [if_pos hr2]
    have hdel : deleteSyncedWalks false false
        (syncLoop (fun _ => true) q
          { isSyncing := true, queue := q, fb := fb } 0).1.queue = [] := by
      unfold deleteSyncedWalks getLocalWalks
      simp only [Bool.false_eq_true, if_false]
      rw [List.filter_eq_nil_iff]
      intro a ha
      simp [l1 a ha]
    have hpass : syncUnsyncedWalks (fun _ => true) true { isSyncing := false, queue := q, fb := fb }
        = { (syncLoop (fun _ => true) q { isSyncing := true, queue := q, fb := fb } 0).1 with
            queue := [], isSyncing := false } := by
      unfold syncUnsyncedWalks syncPassGuard
      simp only [Bool.false_eq_true, if_false, if_true]
      rw [hbody]
      dsimp only
      rw [hdel]
    rw [hpass]
    exact ⟨l2, rfl⟩

/-- C3 witness: the drain theorem at `stateC1` (one fresh unsynced record). -/
theorem C3_all_success_pass_drains_queue_witness :
    (syncUnsyncedWalks (fun _ => true) true stateC1).fb.walks.length
      = stateC1.fb.walks.length + stateC1.queue.length
    ∧ getUnsyncedWalks false (syncUnsyncedWalks (fun _ => true) true stateC1).queue = [] :=
  C3_all_success_pass_drains_queue stateC1 rfl (by decide) (by decide)
